import Mathlib

/-!
# Verification of the sports-analyzer backend

Shallow embedding of the JavaScript sources of the sports-analyzer backend
(`src/config.js`, `src/services/claudeService.js` — which also contains the
Express server —, `src/services/videoProcessor.js`) and proofs of the
specification's claims about them.

JavaScript strings are modelled as Lean `String`s; the JS string and regex
operations used by the source are translated to structurally recursive
functions over `List Char` so they compute. External effects (the inference
API, the filesystem cache, the transcoder, JSON.parse, MD5, timers) are
passed in as explicit parameters, so each theorem quantifies over every
possible behaviour of the environment.
-/

namespace SportsAnalyzer

/-! ## JS string / regex primitives -/

/-- Lexicographic comparison of UTF code-unit sequences: the comparator of the
default JS `Array.prototype.sort()` applied to strings. -/
def charListLe : List Char → List Char → Bool
  | [], _ => true
  | _ :: _, [] => false
  | a :: as, b :: bs =>
    if a.val < b.val then true else if b.val < a.val then false else charListLe as bs

/-- JS default string sort order, character-wise on the underlying data. -/
def jsStrLe (a b : String) : Bool := charListLe a.data b.data

/-- JS `s.endsWith(suffix)`, also the semantics of an anchored regex test
`/x$/.test(s)`. -/
def jsEndsWith (s suffix : String) : Bool := suffix.data.isSuffixOf s.data

/-- JS `s.startsWith(pre)`, also the semantics of an anchored regex test
`/^x/.test(s)`. -/
def jsStartsWith (s pre : String) : Bool := pre.data.isPrefixOf s.data

/-- JS `s.toLowerCase()` (on the ASCII range used by the file-type checks). -/
def jsToLower (s : String) : String := ⟨s.data.map Char.toLower⟩

/-! ## `src/config.js` -/

/-- `config.DEV_MODE` from `src/config.js` line 10:
`process.env.DEV_MODE === 'true' || true`. The argument is the value of the
`DEV_MODE` environment variable, `none` when the variable is unset. -/
def DEV_MODE (env : Option String) : Bool :=
  (env == some "true") || true

/-! ## `src/services/claudeService.js` — the `ClaudeService` class -/

/-- One cache file, as written by `ClaudeService.analyzeFrame`
(`fs.writeJson(cacheFile, { prompt, response, timestamp })`). -/
structure CacheEntry where
  prompt : String
  response : String
  timestamp : String
deriving DecidableEq

/-- The cache directory: a map from cache key to the cache file stored under
`<key>.json`, `none` when no such file exists. -/
abbrev Cache := String → Option CacheEntry

/-- `ClaudeService.createCacheKey` (claudeService.js lines 139-145):
`md5(frameBase64.substring(0, 1000) + prompt.substring(0, 200))`, hex-encoded.
`md5hex` is the MD5-and-hex-digest function, passed as a parameter since it is
a library primitive. -/
def createCacheKey (md5hex : String → String) (frameBase64 prompt : String) : String :=
  md5hex (frameBase64.take 1000 ++ prompt.take 200)

/-- The observable outcome of one `analyzeFrame` call: the value returned or
error thrown, the state of the cache directory afterwards, and whether an
outbound HTTP request to the inference API was issued. -/
structure AnalyzeOutcome where
  result : Except String String
  cache : Cache
  apiCalled : Bool

/-- `ClaudeService.analyzeFrame` (claudeService.js lines 76-137). `api` is the
outcome the external inference API would produce if called (`Except.ok` with
the response text, or `Except.error` with the failure message); `now` is the
timestamp string written into a fresh cache entry. -/
def analyzeFrame (md5hex : String → String) (api : Except String String) (now : String)
    (cache : Cache) (frameBase64 prompt : String) : AnalyzeOutcome :=
  let cacheKey := createCacheKey md5hex frameBase64 prompt
  match cache cacheKey with
  | some cached => { result := Except.ok cached.response, cache := cache, apiCalled := false }
  | none =>
    match api with
    | Except.ok result =>
      { result := Except.ok result
        cache := fun k =>
          if k = cacheKey then some { prompt := prompt, response := result, timestamp := now }
          else cache k
        apiCalled := true }
    | Except.error e =>
      { result := Except.error ("Claude API Error: " ++ e), cache := cache, apiCalled := true }

/-! ## `src/services/claudeService.js` — the Express server part -/

/-- The extension allow-list test `/\.(mp4|avi|mov|mkv|webm)$/i.test(file.originalname)`
from the multer `fileFilter`. -/
def allowedExtension (originalname : String) : Bool :=
  [".mp4", ".avi", ".mov", ".mkv", ".webm"].any
    (fun ext => jsEndsWith (jsToLower originalname) ext)

/-- The MIME allow-list test `/^video\//.test(file.mimetype)` from the multer
`fileFilter`. -/
def allowedMimeType (mimetype : String) : Bool :=
  jsStartsWith mimetype "video/"

/-- The multer `fileFilter` callback: `cb(null, true)` on acceptance,
`cb(new Error('Only video files are allowed!'))` on rejection. -/
def fileFilter (originalname mimetype : String) : Except String Bool :=
  if allowedExtension originalname || allowedMimeType mimetype then Except.ok true
  else Except.error "Only video files are allowed!"

/-- The status sent by the final error-handling middleware
`app.use((error, req, res, next) => { ... res.status(500)... })`. -/
def errorMiddlewareStatus : Nat := 500

/-- The HTTP status produced for an upload, determined by the `fileFilter`
outcome: a rejection error propagates from multer to the error-handling
middleware; `none` means the request proceeds to the route handler. -/
def uploadRejectionStatus (originalname mimetype : String) : Option Nat :=
  match fileFilter originalname mimetype with
  | Except.error _ => some errorMiddlewareStatus
  | Except.ok _ => none

/-- The whole-request timeout budget: `setTimeout(..., 300000)` in the
`POST /api/analyze-video` handler. -/
def REQUEST_TIMEOUT_MS : Nat := 300000

/-- The body of the request-timeout callback: respond 408 unless headers were
already sent (`if (!res.headersSent) res.status(408)...`), otherwise send
nothing. -/
def requestTimeoutAction (headersSent : Bool) : Option Nat :=
  if headersSent then none else some 408

/-- The parts of the HTTP response relevant to the error-path claims: the
status code and the `error` / `details` fields of the JSON body. -/
structure HttpResponse where
  status : Nat
  errorMsg : Option String
  details : Option String
deriving DecidableEq

/-! ## `src/services/videoProcessor.js` -/

/-- Numeric value displayed by JS `x.toFixed(2)` for the nonnegative values
arising here: round half-up at two decimal places. -/
def toFixed2 (q : ℚ) : ℚ := ((⌊q * 100 + 1 / 2⌋ : ℤ) : ℚ) / 100

/-- One shot record of the structured JSON shot-log parsed in dev mode. -/
structure Shot where
  result : String
  shot_type : String
  feedback : String
deriving DecidableEq

/-- The structured JSON payload parsed from a dev-mode response:
`{ shots: [...] }`. -/
structure ShotLog where
  shots : List Shot
deriving DecidableEq

/-- One entry of the `frameAnalyses` array built by the per-frame loop. -/
structure FrameAnalysis where
  frame : String
  timestamp : ℚ
  analysis : String
  structuredData : Option ShotLog
deriving DecidableEq

/-- `VideoProcessor.withTimeout` (videoProcessor.js lines 202-209): a race
between the wrapped promise and a timer; `timedOut` records whether the timer
wins, in which case the result is a rejection with `'Operation timed out'`. -/
def withTimeout (promise : Except String String) (timedOut : Bool) : Except String String :=
  if timedOut then Except.error "Operation timed out" else promise

/-- The inference call made for frame `i` in the per-frame loop
(videoProcessor.js lines 106-108): the dev-mode mock under a 10 s timeout when
`config.DEV_MODE`, otherwise the real `analyzeFrame` under a 30 s timeout.
`inferDev`/`inferReal` give the settlement of each service promise and
`timedOut` whether the race timer fires first for frame `i`. -/
def frameInference (devMode : Bool) (inferDev inferReal : ℕ → Except String String)
    (timedOut : ℕ → Bool) (i : ℕ) : Except String String :=
  if devMode then withTimeout (inferDev i) (timedOut i)
  else withTimeout (inferReal i) (timedOut i)

/-- The `analysis` text and optional `structuredData` pushed for frame `i` by
the per-frame loop (videoProcessor.js lines 90-160): the first frame is
skipped with empty analysis; a caught rejection yields the fixed placeholder;
in dev mode the response is JSON-parsed into a shot log whose last shot's
feedback is used (`relevantShot.feedback || "No specific feedback available"`,
the JS `||` taking the default on an empty string), with branches for an empty
shot list and a parse failure; otherwise the plain response text is used.
`parseJson` is the partial inverse `JSON.parse` restricted to shot-log
payloads (`none` models a parse exception or a payload without `shots`). -/
def frameOutcome (devMode : Bool) (parseJson : String → Option ShotLog)
    (inferDev inferReal : ℕ → Except String String) (timedOut : ℕ → Bool)
    (i : ℕ) : String × Option ShotLog :=
  if i = 0 then ("", none)
  else
    match frameInference devMode inferDev inferReal timedOut i with
    | Except.error _ => ("Analysis failed for this frame", none)
    | Except.ok analysis =>
      if devMode then
        match parseJson analysis with
        | some parsedAnalysis =>
          if h : parsedAnalysis.shots = [] then ("No shot data available", none)
          else
            let relevantShot := parsedAnalysis.shots.getLast h
            (if relevantShot.feedback = "" then "No specific feedback available"
             else relevantShot.feedback,
             some parsedAnalysis)
        | none => (analysis, none)
      else (analysis, none)

/-- The `FrameAnalysis` entry pushed for frame `i` named `frameName`: every
branch of the loop pushes exactly one object whose `frame` and `timestamp`
fields are `sortedFrames[i]` and `(i / fps).toFixed(2)`. -/
def processFrame (devMode : Bool) (parseJson : String → Option ShotLog)
    (inferDev inferReal : ℕ → Except String String) (timedOut : ℕ → Bool)
    (fps : ℕ) (i : ℕ) (frameName : String) : FrameAnalysis :=
  { frame := frameName
    timestamp := toFixed2 ((i : ℚ) / (fps : ℚ))
    analysis := (frameOutcome devMode parseJson inferDev inferReal timedOut i).1
    structuredData := (frameOutcome devMode parseJson inferDev inferReal timedOut i).2 }

/-- `videoInfo.format.duration || 60` (videoProcessor.js line 61): the JS `||`
takes the default 60 when the probed duration is absent (`none`) or `0`
(falsy). -/
def effectiveDuration (probedDuration : Option ℚ) : ℚ :=
  match probedDuration with
  | none => 60
  | some d => if d = 0 then 60 else d

/-- `maxFrames = Math.min(Math.ceil(duration * fps), 30)` (videoProcessor.js
line 62). `Int.toNat` clamps the (here always nonnegative) ceiling into ℕ. -/
def maxFramesFor (probedDuration : Option ℚ) (fps : ℕ) : ℕ :=
  min (Int.toNat ⌈effectiveDuration probedDuration * (fps : ℚ)⌉) 30

/-- Model of the external transcoder invocation in
`VideoProcessor.extractFrames` (videoProcessor.js lines 220-244): on success,
`screenshots({ count, filename: 'frame-%d.jpg', ... })` fills the frames
directory with exactly `count` JPEG files `frame-1.jpg` … `frame-count.jpg`. -/
def extractFramesNames (count : ℕ) : List String :=
  (List.range count).map (fun k => "frame-" ++ toString (k + 1) ++ ".jpg")

/-- `sortedFrames` (videoProcessor.js lines 73-77): the directory listing,
filtered to `.jpg` files, sorted with the default JS string sort, and sliced
to at most `maxFrames` entries. -/
def sortedFramesList (probedDuration : Option ℚ) (fps : ℕ) : List String :=
  let maxFrames := maxFramesFor probedDuration fps
  (((extractFramesNames maxFrames).filter
      (fun file => jsEndsWith file ".jpg")).mergeSort jsStrLe).take maxFrames

/-- The `frameAnalyses` list built by the normal-mode per-frame loop of
`VideoProcessor.processVideo` (videoProcessor.js lines 81-161): one
`FrameAnalysis` per sorted frame, in loop order. -/
def processVideoFrames (devMode : Bool) (parseJson : String → Option ShotLog)
    (inferDev inferReal : ℕ → Except String String) (timedOut : ℕ → Bool)
    (probedDuration : Option ℚ) (fps : ℕ) : List FrameAnalysis :=
  ((sortedFramesList probedDuration fps).enum).map
    (fun p => processFrame devMode parseJson inferDev inferReal timedOut fps p.1 p.2)

/-- Normal-mode `VideoProcessor.processVideo` at the granularity of its
fallible pipeline steps: metadata probing, frame extraction, and re-encoding
(clean copy plus overlay burn-in), each an external-process call whose outcome
is a parameter. The surrounding `try/catch` logs and rethrows, so every step
failure propagates as the thrown error (videoProcessor.js lines 195-198). -/
def processVideo (probeResult : Except String (Option ℚ))
    (extractResult : Except String Unit) (encodeResult : Except String Unit)
    (devMode : Bool) (parseJson : String → Option ShotLog)
    (inferDev inferReal : ℕ → Except String String) (timedOut : ℕ → Bool)
    (fps : ℕ) : Except String (List FrameAnalysis) :=
  match probeResult with
  | Except.error e => Except.error e
  | Except.ok probedDuration =>
    match extractResult with
    | Except.error e => Except.error e
    | Except.ok _ =>
      let frameAnalyses :=
        processVideoFrames devMode parseJson inferDev inferReal timedOut probedDuration fps
      match encodeResult with
      | Except.error e => Except.error e
      | Except.ok _ => Except.ok frameAnalyses

/-- The `POST /api/analyze-video` handler's disposition of the `processVideo`
promise: `200` with the results on success, and on a rejection the `catch`
block's `res.status(500).json({ error: 'Error processing video', details:
error.message })`. -/
def handleAnalyzeVideo (pv : Except String (List FrameAnalysis)) : HttpResponse :=
  match pv with
  | Except.ok _ => { status := 200, errorMsg := none, details := none }
  | Except.error e =>
    { status := 500, errorMsg := some "Error processing video", details := some e }

/-! ## Helper lemmas -/

/-- Every file the extraction model produces ends in `.jpg`, so the loop's
`.filter(file => file.endsWith('.jpg'))` keeps all of them. -/
theorem filter_jpg_extractFramesNames (m : ℕ) :
    (extractFramesNames m).filter (fun file => jsEndsWith file ".jpg")
      = extractFramesNames m := by
  apply List.filter_eq_self.mpr
  intro a ha
  simp only [extractFramesNames, List.mem_map, List.mem_range] at ha
  obtain ⟨k, -, rfl⟩ := ha
  simp only [jsEndsWith, List.isSuffixOf_iff_suffix, String.data_append]
  rw [List.append_assoc]
  exact (List.suffix_append _ _).trans (List.suffix_append _ _)

theorem sortedFramesList_length (probedDuration : Option ℚ) (fps : ℕ) :
    (sortedFramesList probedDuration fps).length = maxFramesFor probedDuration fps := by
  show (List.take _ ((List.filter _ (extractFramesNames _)).mergeSort jsStrLe)).length = _
  rw [filter_jpg_extractFramesNames, List.length_take, List.length_mergeSort]
  simp [extractFramesNames]

theorem processVideoFrames_length (devMode : Bool) (parseJson : String → Option ShotLog)
    (inferDev inferReal : ℕ → Except String String) (timedOut : ℕ → Bool)
    (probedDuration : Option ℚ) (fps : ℕ) :
    (processVideoFrames devMode parseJson inferDev inferReal timedOut probedDuration fps).length
      = maxFramesFor probedDuration fps := by
  simp [processVideoFrames, List.enum_length, sortedFramesList_length]

theorem processVideoFrames_get (devMode : Bool) (parseJson : String → Option ShotLog)
    (inferDev inferReal : ℕ → Except String String) (timedOut : ℕ → Bool)
    (probedDuration : Option ℚ) (fps : ℕ) (i : ℕ)
    (hi : i < (sortedFramesList probedDuration fps).length)
    (hi' : i < (processVideoFrames devMode parseJson inferDev inferReal timedOut
        probedDuration fps).length) :
    (processVideoFrames devMode parseJson inferDev inferReal timedOut
        probedDuration fps).get ⟨i, hi'⟩
      = processFrame devMode parseJson inferDev inferReal timedOut fps i
          ((sortedFramesList probedDuration fps).get ⟨i, hi⟩) := by
  simp [processVideoFrames, List.getElem_map, List.getElem_enum]

theorem toFixed2_mono {a b : ℚ} (h : a ≤ b) : toFixed2 a ≤ toFixed2 b := by
  unfold toFixed2
  have hfl : (⌊a * 100 + 1 / 2⌋ : ℤ) ≤ ⌊b * 100 + 1 / 2⌋ :=
    Int.floor_le_floor (by linarith)
  have h100 : (0 : ℚ) < 100 := by norm_num
  exact (div_le_div_iff_of_pos_right h100).mpr (by exact_mod_cast hfl)

theorem natCast_div_mono {j k : ℕ} (fps : ℕ) (h : j ≤ k) :
    (j : ℚ) / (fps : ℚ) ≤ (k : ℚ) / (fps : ℚ) := by
  rcases Nat.eq_zero_or_pos fps with h0 | hpos
  · subst h0; simp
  · have : (0 : ℚ) < fps := by exact_mod_cast hpos
    exact (div_le_div_iff_of_pos_right this).mpr (by exact_mod_cast h)

/-- When `devMode` is on, the per-frame outcome never consults the real
inference path. -/
theorem frameOutcome_dev_irrel (parseJson : String → Option ShotLog)
    (inferDev inferReal inferReal' : ℕ → Except String String) (timedOut : ℕ → Bool)
    (i : ℕ) :
    frameOutcome true parseJson inferDev inferReal timedOut i
      = frameOutcome true parseJson inferDev inferReal' timedOut i := by
  simp [frameOutcome, frameInference]

/-! ## Claim theorems -/

/-- Claim C10: regardless of the `DEV_MODE` environment variable,
`config.DEV_MODE` evaluates to `true`, so the per-frame loop always takes the
mock `analyzeFrameDev` branch and its result never depends on the real
inference path. -/
theorem C10_dev_mode_always_on (env : Option String) (parseJson : String → Option ShotLog)
    (inferDev inferReal inferReal' : ℕ → Except String String) (timedOut : ℕ → Bool)
    (probedDuration : Option ℚ) (fps : ℕ) :
    DEV_MODE env = true ∧
    processVideoFrames (DEV_MODE env) parseJson inferDev inferReal timedOut probedDuration fps
      = processVideoFrames (DEV_MODE env) parseJson inferDev inferReal' timedOut
          probedDuration fps := by
  have hdev : DEV_MODE env = true := by simp [DEV_MODE]
  refine ⟨hdev, ?_⟩
  rw [hdev]
  unfold processVideoFrames
  apply List.map_congr_left
  intro p _
  simp [processFrame, frameOutcome_dev_irrel parseJson inferDev inferReal inferReal' timedOut p.1]

/-- Claim C7: when the fixed 300-second budget elapses, the timeout callback
responds 408 if headers have not been sent and sends nothing otherwise. -/
theorem C7_request_timeout_behavior :
    REQUEST_TIMEOUT_MS = 300000 ∧
    requestTimeoutAction false = some 408 ∧
    requestTimeoutAction true = none :=
  ⟨rfl, rfl, rfl⟩

/-- Claim C5, counterexample: a file failing both the extension and the MIME
allow-list is rejected, but the response status is 500 (the generic
error-handling middleware), not the 400 the claim states. -/
theorem C5_counterexample :
    allowedExtension "malware.txt" = false ∧
    allowedMimeType "text/plain" = false ∧
    uploadRejectionStatus "malware.txt" "text/plain" = some 500 ∧
    uploadRejectionStatus "malware.txt" "text/plain" ≠ some 400 := by
  refine ⟨by decide, by decide, rfl, by decide⟩

/-- Claim C5, amended: for every uploaded file whose name fails the extension
allow-list and whose MIME type fails the `video/` allow-list, the upload is
rejected (the `fileFilter` calls back with the error) and the HTTP response
status is 500, produced by the generic error-handling middleware. -/
theorem C5_upload_rejected_500 (originalname mimetype : String)
    (hext : allowedExtension originalname = false)
    (hmime : allowedMimeType mimetype = false) :
    fileFilter originalname mimetype = Except.error "Only video files are allowed!" ∧
    uploadRejectionStatus originalname mimetype = some errorMiddlewareStatus := by
  have hff : fileFilter originalname mimetype = Except.error "Only video files are allowed!" := by
    simp [fileFilter, hext, hmime]
  exact ⟨hff, by simp [uploadRejectionStatus, hff]⟩

/-- Witness for the amended claim C5 at a concrete rejected upload. -/
theorem C5_upload_rejected_500_witness :
    allowedExtension "malware.txt" = false ∧
    allowedMimeType "text/plain" = false ∧
    uploadRejectionStatus "malware.txt" "text/plain" = some errorMiddlewareStatus :=
  ⟨by decide, by decide,
    (C5_upload_rejected_500 "malware.txt" "text/plain" (by decide) (by decide)).2⟩

/-- Claim C4: a cache hit returns the cached response with no outbound API
call; a cache miss with a successful API call writes the response to the
cache, so that an identical re-submission is served from the cache with no
API call, whatever the API would do the second time. -/
theorem C4_cache_hit_and_write (md5hex : String → String) (api api' : Except String String)
    (now now' : String) (cache : Cache) (frameBase64 prompt : String) :
    (∀ c, cache (createCacheKey md5hex frameBase64 prompt) = some c →
      analyzeFrame md5hex api now cache frameBase64 prompt
        = { result := Except.ok c.response, cache := cache, apiCalled := false }) ∧
    (cache (createCacheKey md5hex frameBase64 prompt) = none →
      ∀ r, api = Except.ok r →
        (analyzeFrame md5hex api now cache frameBase64 prompt).apiCalled = true ∧
        (analyzeFrame md5hex api now cache frameBase64 prompt).result = Except.ok r ∧
        analyzeFrame md5hex api' now'
            (analyzeFrame md5hex api now cache frameBase64 prompt).cache frameBase64 prompt
          = { result := Except.ok r,
              cache := (analyzeFrame md5hex api now cache frameBase64 prompt).cache,
              apiCalled := false }) := by
  constructor
  · intro c hc
    simp [analyzeFrame, hc]
  · intro hmiss r hr
    subst hr
    have h1 : analyzeFrame md5hex (Except.ok r) now cache frameBase64 prompt
        = { result := Except.ok r,
            cache := fun k =>
              if k = createCacheKey md5hex frameBase64 prompt
              then some { prompt := prompt, response := r, timestamp := now }
              else cache k,
            apiCalled := true } := by
      simp [analyzeFrame, hmiss]
    refine ⟨by rw [h1], by rw [h1], ?_⟩
    rw [h1]
    simp [analyzeFrame]

/-- Witness for claim C4: a concrete miss-then-hit sequence in which the
second call is served from the cache even though the API would now fail. -/
theorem C4_cache_hit_and_write_witness :
    ((fun _ => none : Cache) (createCacheKey (fun s => s) "frameB64" "coach me") = none) ∧
    (analyzeFrame (fun s => s) (Except.ok "resp") "t0" (fun _ => none)
        "frameB64" "coach me").apiCalled = true ∧
    analyzeFrame (fun s => s) (Except.error "api down") "t1"
        (analyzeFrame (fun s => s) (Except.ok "resp") "t0" (fun _ => none)
          "frameB64" "coach me").cache "frameB64" "coach me"
      = { result := Except.ok "resp",
          cache := (analyzeFrame (fun s => s) (Except.ok "resp") "t0" (fun _ => none)
            "frameB64" "coach me").cache,
          apiCalled := false } := by
  have h := (C4_cache_hit_and_write (fun s => s) (Except.ok "resp") (Except.error "api down")
      "t0" "t1" (fun _ => none) "frameB64" "coach me").2 rfl "resp" rfl
  exact ⟨rfl, h.1, h.2.2⟩

/-- Claim C9: `createCacheKey` depends only on the first 1000 characters of
the frame and the first 200 characters of the prompt, so two pairs agreeing
on those prefixes get equal keys, and the second pair is served the first
pair's cached response with no API call. -/
theorem C9_cache_key_prefix_only (md5hex : String → String) (f1 p1 f2 p2 : String)
    (hf : f1.take 1000 = f2.take 1000) (hp : p1.take 200 = p2.take 200) :
    createCacheKey md5hex f1 p1 = createCacheKey md5hex f2 p2 ∧
    ∀ (cache : Cache) (now r : String),
      cache (createCacheKey md5hex f1 p1) = none →
      ∀ (api' : Except String String) (now' : String),
        analyzeFrame md5hex api' now'
            (analyzeFrame md5hex (Except.ok r) now cache f1 p1).cache f2 p2
          = { result := Except.ok r,
              cache := (analyzeFrame md5hex (Except.ok r) now cache f1 p1).cache,
              apiCalled := false } := by
  have hkey : createCacheKey md5hex f1 p1 = createCacheKey md5hex f2 p2 := by
    unfold createCacheKey
    rw [hf, hp]
  refine ⟨hkey, ?_⟩
  intro cache now r hmiss api' now'
  have h1 : analyzeFrame md5hex (Except.ok r) now cache f1 p1
      = { result := Except.ok r,
          cache := fun k =>
            if k = createCacheKey md5hex f1 p1
            then some { prompt := p1, response := r, timestamp := now }
            else cache k,
          apiCalled := true } := by
    simp [analyzeFrame, hmiss]
  rw [h1]
  simp [analyzeFrame, ← hkey]

/-- Witness for claim C9 at concrete pairs agreeing on the hashed prefixes. -/
theorem C9_cache_key_prefix_only_witness :
    "frameB64".take 1000 = "frameB64".take 1000 ∧
    "coach me".take 200 = "coach me".take 200 ∧
    analyzeFrame (fun s => s) (Except.error "api down") "t1"
        (analyzeFrame (fun s => s) (Except.ok "resp") "t0" (fun _ => none)
          "frameB64" "coach me").cache "frameB64" "coach me"
      = { result := Except.ok "resp",
          cache := (analyzeFrame (fun s => s) (Except.ok "resp") "t0" (fun _ => none)
            "frameB64" "coach me").cache,
          apiCalled := false } :=
  ⟨rfl, rfl,
    (C9_cache_key_prefix_only (fun s => s) "frameB64" "coach me" "frameB64" "coach me"
      rfl rfl).2 (fun _ => none) "t0" "resp" rfl (Except.error "api down") "t1"⟩

/-- Claim C6: when the pipeline's external-process step (frame extraction or
re-encoding) fails, `processVideo` rethrows and the handler responds 500 with
the underlying message in the `details` field of the body. -/
theorem C6_pipeline_failure_500 (probeResult : Except String (Option ℚ))
    (extractResult encodeResult : Except String Unit) (devMode : Bool)
    (parseJson : String → Option ShotLog) (inferDev inferReal : ℕ → Except String String)
    (timedOut : ℕ → Bool) (fps : ℕ) (probedDuration : Option ℚ) (msg : String)
    (hprobe : probeResult = Except.ok probedDuration)
    (hfail : extractResult = Except.error msg
      ∨ (extractResult = Except.ok () ∧ encodeResult = Except.error msg)) :
    (handleAnalyzeVideo (processVideo probeResult extractResult encodeResult devMode parseJson
        inferDev inferReal timedOut fps)).status = 500 ∧
    (handleAnalyzeVideo (processVideo probeResult extractResult encodeResult devMode parseJson
        inferDev inferReal timedOut fps)).details = some msg := by
  subst hprobe
  rcases hfail with hext | ⟨hext, henc⟩
  · subst hext
    exact ⟨rfl, rfl⟩
  · subst hext
    subst henc
    exact ⟨rfl, rfl⟩

/-- Witness for claim C6 at a concrete failing extraction step. -/
theorem C6_pipeline_failure_500_witness :
    (Except.ok (some (1 : ℚ)) : Except String (Option ℚ)) = Except.ok (some (1 : ℚ)) ∧
    (handleAnalyzeVideo (processVideo (Except.ok (some 1))
        (Except.error "Frame extraction timed out") (Except.ok ()) true (fun _ => none)
        (fun _ => Except.ok "f") (fun _ => Except.ok "f") (fun _ => false) 1)).status = 500 ∧
    (handleAnalyzeVideo (processVideo (Except.ok (some 1))
        (Except.error "Frame extraction timed out") (Except.ok ()) true (fun _ => none)
        (fun _ => Except.ok "f") (fun _ => Except.ok "f") (fun _ => false) 1)).details
      = some "Frame extraction timed out" := by
  have h := C6_pipeline_failure_500 (Except.ok (some 1))
    (Except.error "Frame extraction timed out") (Except.ok ()) true (fun _ => none)
    (fun _ => Except.ok "f") (fun _ => Except.ok "f") (fun _ => false) 1 (some 1)
    "Frame extraction timed out" rfl (Or.inl rfl)
  exact ⟨rfl, h.1, h.2⟩

/-- Claim C1: for a video of positive probed duration `d` and rate `fps` with
`⌈d * fps⌉ ≤ 30`, the loop processes exactly `⌈d * fps⌉` frames, and for every
probed duration and rate the number of frames passed to per-frame analysis
never exceeds the fixed cap of 30. -/
theorem C1_frame_count_and_cap (devMode : Bool) (parseJson : String → Option ShotLog)
    (inferDev inferReal : ℕ → Except String String) (timedOut : ℕ → Bool)
    (d : ℚ) (fps : ℕ) (hd : 0 < d) :
    (⌈d * (fps : ℚ)⌉ ≤ 30 →
      (processVideoFrames devMode parseJson inferDev inferReal timedOut (some d) fps).length
        = (⌈d * (fps : ℚ)⌉).toNat) ∧
    ∀ (probedDuration : Option ℚ) (fps' : ℕ),
      (processVideoFrames devMode parseJson inferDev inferReal timedOut
          probedDuration fps').length ≤ 30 := by
  constructor
  · intro hcap
    have hed : effectiveDuration (some d) = d := by
      simp [effectiveDuration, hd.ne']
    rw [processVideoFrames_length]
    unfold maxFramesFor
    rw [hed]
    exact min_eq_left (Int.toNat_le.mpr (by exact_mod_cast hcap))
  · intro probedDuration fps'
    rw [processVideoFrames_length]
    exact min_le_right _ _

/-- Witness for claim C1: a 2.5 s video at 2 fps yields exactly 5 frames. -/
theorem C1_frame_count_and_cap_witness :
    0 < (5 / 2 : ℚ) ∧ ⌈(5 / 2 : ℚ) * ((2 : ℕ) : ℚ)⌉ ≤ 30 ∧
    (processVideoFrames true (fun _ => none) (fun _ => Except.ok "f") (fun _ => Except.ok "f")
        (fun _ => false) (some (5 / 2)) 2).length = 5 := by
  have h := (C1_frame_count_and_cap true (fun _ => none) (fun _ => Except.ok "f")
      (fun _ => Except.ok "f") (fun _ => false) (5 / 2) 2 (by norm_num)).1 (by norm_num)
  refine ⟨by norm_num, by norm_num, ?_⟩
  rw [h]
  norm_num
  decide

/-- Claim C2: whenever the normal-mode run samples at least one frame, the
first entry of the analysis list carries the empty string as its analysis,
and it is the same entry whatever the inference services or timers do. -/
theorem C2_first_frame_empty (devMode : Bool) (parseJson : String → Option ShotLog)
    (inferDev inferReal : ℕ → Except String String) (timedOut : ℕ → Bool)
    (probedDuration : Option ℚ) (fps : ℕ)
    (hlen : 0 < (processVideoFrames devMode parseJson inferDev inferReal timedOut
        probedDuration fps).length) :
    ∃ fa : FrameAnalysis,
      (processVideoFrames devMode parseJson inferDev inferReal timedOut
          probedDuration fps).head? = some fa
      ∧ fa.analysis = ""
      ∧ ∀ (inferDev' inferReal' : ℕ → Except String String) (timedOut' : ℕ → Bool),
          (processVideoFrames devMode parseJson inferDev' inferReal' timedOut'
              probedDuration fps).head? = some fa := by
  have hne : sortedFramesList probedDuration fps ≠ [] := by
    rw [processVideoFrames_length, ← sortedFramesList_length] at hlen
    exact List.ne_nil_of_length_pos hlen
  obtain ⟨x, xs, heq⟩ := List.exists_cons_of_ne_nil hne
  refine ⟨processFrame devMode parseJson inferDev inferReal timedOut fps 0 x, ?_, ?_, ?_⟩
  · unfold processVideoFrames
    rw [heq]
    simp [List.enum_cons]
  · simp [processFrame, frameOutcome]
  · intro inferDev' inferReal' timedOut'
    unfold processVideoFrames
    rw [heq]
    simp [List.enum_cons, processFrame, frameOutcome]

/-- Witness for claim C2: a 1 s video at 1 fps samples one frame and its entry
has empty analysis. -/
theorem C2_first_frame_empty_witness :
    0 < (processVideoFrames true (fun _ => none) (fun _ => Except.ok "f")
        (fun _ => Except.ok "f") (fun _ => false) (some 1) 1).length ∧
    ∃ fa : FrameAnalysis,
      (processVideoFrames true (fun _ => none) (fun _ => Except.ok "f")
          (fun _ => Except.ok "f") (fun _ => false) (some 1) 1).head? = some fa
      ∧ fa.analysis = ""
      ∧ ∀ (inferDev' inferReal' : ℕ → Except String String) (timedOut' : ℕ → Bool),
          (processVideoFrames true (fun _ => none) inferDev' inferReal' timedOut'
              (some 1) 1).head? = some fa := by
  have hlen : 0 < (processVideoFrames true (fun _ => none) (fun _ => Except.ok "f")
      (fun _ => Except.ok "f") (fun _ => false) (some 1) 1).length := by
    rw [processVideoFrames_length]
    unfold maxFramesFor effectiveDuration
    norm_num
  exact ⟨hlen, C2_first_frame_empty true (fun _ => none) (fun _ => Except.ok "f")
    (fun _ => Except.ok "f") (fun _ => false) (some 1) 1 hlen⟩

/-- Claim C3: a frame whose inference call times out (or fails for any
reason) gets the fixed placeholder string as its recorded analysis, the loop
continues so the list length is unaffected by which frames fail, and no
rejection escapes the loop. -/
theorem C3_frame_failure_placeholder (devMode : Bool) (parseJson : String → Option ShotLog)
    (inferDev inferReal : ℕ → Except String String) (timedOut : ℕ → Bool)
    (probedDuration : Option ℚ) (fps : ℕ) (i : ℕ)
    (hi : i < (processVideoFrames devMode parseJson inferDev inferReal timedOut
        probedDuration fps).length)
    (h0 : i ≠ 0) :
    (timedOut i = true →
      frameInference devMode inferDev inferReal timedOut i
        = Except.error "Operation timed out") ∧
    (∀ e, frameInference devMode inferDev inferReal timedOut i = Except.error e →
      ((processVideoFrames devMode parseJson inferDev inferReal timedOut
          probedDuration fps).get? i).map FrameAnalysis.analysis
        = some "Analysis failed for this frame") ∧
    ∀ (inferDev' inferReal' : ℕ → Except String String) (timedOut' : ℕ → Bool),
      (processVideoFrames devMode parseJson inferDev' inferReal' timedOut'
          probedDuration fps).length
        = (processVideoFrames devMode parseJson inferDev inferReal timedOut
            probedDuration fps).length := by
  refine ⟨?_, ?_, ?_⟩
  · intro ht
    cases devMode <;> simp [frameInference, withTimeout, ht]
  · intro e he
    have hi' : i < (sortedFramesList probedDuration fps).length := by
      rwa [processVideoFrames_length, ← sortedFramesList_length] at hi
    rw [List.get?_eq_get hi,
      processVideoFrames_get devMode parseJson inferDev inferReal timedOut
        probedDuration fps i hi' hi]
    simp [processFrame, frameOutcome, h0, he]
  · intro inferDev' inferReal' timedOut'
    rw [processVideoFrames_length, processVideoFrames_length]

/-- Witness for claim C3: with the race timer firing on every frame, frame 1
of a 2 s video records the placeholder string. -/
theorem C3_frame_failure_placeholder_witness :
    (1 : ℕ) ≠ 0 ∧
    ((processVideoFrames true (fun _ => none) (fun _ => Except.ok "f")
        (fun _ => Except.ok "f") (fun _ => true) (some 2) 1).get? 1).map
        FrameAnalysis.analysis
      = some "Analysis failed for this frame" := by
  have hi : 1 < (processVideoFrames true (fun _ => none) (fun _ => Except.ok "f")
      (fun _ => Except.ok "f") (fun _ => true) (some 2) 1).length := by
    rw [processVideoFrames_length]
    unfold maxFramesFor effectiveDuration
    norm_num
  have h := C3_frame_failure_placeholder true (fun _ => none) (fun _ => Except.ok "f")
    (fun _ => Except.ok "f") (fun _ => true) (some 2) 1 1 hi (by decide)
  exact ⟨by decide, h.2.1 "Operation timed out" (h.1 rfl)⟩

/-- Claim C8: the analysis list has exactly one entry per sampled frame, and
entry timestamps `(i / fps).toFixed(2)` are nondecreasing in the frame
index. -/
theorem C8_one_entry_per_frame_ordered (devMode : Bool) (parseJson : String → Option ShotLog)
    (inferDev inferReal : ℕ → Except String String) (timedOut : ℕ → Bool)
    (probedDuration : Option ℚ) (fps : ℕ) :
    (processVideoFrames devMode parseJson inferDev inferReal timedOut
        probedDuration fps).length
      = (sortedFramesList probedDuration fps).length ∧
    ∀ j k : ℕ, j ≤ k →
      k < (processVideoFrames devMode parseJson inferDev inferReal timedOut
          probedDuration fps).length →
      ∃ faj fak : FrameAnalysis,
        (processVideoFrames devMode parseJson inferDev inferReal timedOut
            probedDuration fps).get? j = some faj ∧
        (processVideoFrames devMode parseJson inferDev inferReal timedOut
            probedDuration fps).get? k = some fak ∧
        faj.timestamp = toFixed2 ((j : ℚ) / (fps : ℚ)) ∧
        fak.timestamp = toFixed2 ((k : ℚ) / (fps : ℚ)) ∧
        faj.timestamp ≤ fak.timestamp := by
  refine ⟨by rw [processVideoFrames_length, sortedFramesList_length], ?_⟩
  intro j k hjk hk
  have hj : j < (processVideoFrames devMode parseJson inferDev inferReal timedOut
      probedDuration fps).length := lt_of_le_of_lt hjk hk
  have hj' : j < (sortedFramesList probedDuration fps).length := by
    rwa [processVideoFrames_length, ← sortedFramesList_length] at hj
  have hk' : k < (sortedFramesList probedDuration fps).length := by
    rwa [processVideoFrames_length, ← sortedFramesList_length] at hk
  refine ⟨_, _, List.get?_eq_get hj, List.get?_eq_get hk, ?_, ?_, ?_⟩
  · rw [processVideoFrames_get devMode parseJson inferDev inferReal timedOut
      probedDuration fps j hj' hj]
    rfl
  · rw [processVideoFrames_get devMode parseJson inferDev inferReal timedOut
      probedDuration fps k hk' hk]
    rfl
  · rw [processVideoFrames_get devMode parseJson inferDev inferReal timedOut
      probedDuration fps j hj' hj,
      processVideoFrames_get devMode parseJson inferDev inferReal timedOut
        probedDuration fps k hk' hk]
    exact toFixed2_mono (natCast_div_mono fps hjk)

/-- Witness for claim C8: the two entries of a 2 s video at 1 fps carry
timestamps 0.00 and 1.00 in order. -/
theorem C8_one_entry_per_frame_ordered_witness :
    (0 : ℕ) ≤ 1 ∧
    1 < (processVideoFrames true (fun _ => none) (fun _ => Except.ok "f")
        (fun _ => Except.ok "f") (fun _ => false) (some 2) 1).length ∧
    ∃ faj fak : FrameAnalysis,
      (processVideoFrames true (fun _ => none) (fun _ => Except.ok "f")
          (fun _ => Except.ok "f") (fun _ => false) (some 2) 1).get? 0 = some faj ∧
      (processVideoFrames true (fun _ => none) (fun _ => Except.ok "f")
          (fun _ => Except.ok "f") (fun _ => false) (some 2) 1).get? 1 = some fak ∧
      faj.timestamp = toFixed2 (((0 : ℕ) : ℚ) / ((1 : ℕ) : ℚ)) ∧
      fak.timestamp = toFixed2 (((1 : ℕ) : ℚ) / ((1 : ℕ) : ℚ)) ∧
      faj.timestamp ≤ fak.timestamp := by
  have hk : 1 < (processVideoFrames true (fun _ => none) (fun _ => Except.ok "f")
      (fun _ => Except.ok "f") (fun _ => false) (some 2) 1).length := by
    rw [processVideoFrames_length]
    unfold maxFramesFor effectiveDuration
    norm_num
  exact ⟨by decide, hk,
    (C8_one_entry_per_frame_ordered true (fun _ => none) (fun _ => Except.ok "f")
      (fun _ => Except.ok "f") (fun _ => false) (some 2) 1).2 0 1 (by decide) hk⟩

end SportsAnalyzer
